import Mathlib

/-!
Shallow embedding of the order-fulfillment and inventory core of the
ecommerce-admin-api repository (src/app/db/crud.py, src/app/db/models.py,
src/app/api/v1/endpoints/sales_reports.py).

Modelling conventions:
- The SQLAlchemy session plus database is modelled as an explicit `DB`
  state record holding the five relations as lists, together with the
  autoincrement counters and a fixed clock value used for order dates.
- DECIMAL(10,2) monetary columns are modelled as integer cents (the code
  only multiplies prices by integer quantities and sums, which is exact
  in Decimal, so integer cents is a faithful representation).
- Timestamps and calendar dates are modelled as integers; a date-range
  filter `start <= t <= end` models the inclusive datetime.combine
  min/max range used by the code.
- Each `db.commit()` in the source is a durability point.  Functions named
  `..._afterFirstCommit` compute the durable state at the first commit
  inside a multi-commit crud function: a storage failure in the rest of
  the function rolls back only the still-pending writes of the second
  transaction, leaving exactly that state.
- A Python `raise` during the read-only validation phase leaves the
  durable database unchanged; `create_order` therefore returns the
  unchanged state alongside the error in its failure case.
-/

/-- Row of the products table (models.Product); price in cents. -/
structure ProductRow where
  id : ℤ
  name : String
  description : Option String
  price : ℤ
  category_id : ℤ
  sku : Option String
deriving Repr, DecidableEq

/-- Row of the categories table (models.Category). -/
structure CategoryRow where
  id : ℤ
  name : String
  description : Option String
deriving Repr, DecidableEq

/-- Row of the inventory table (models.Inventory), the per-product stock record. -/
structure InventoryRow where
  product_id : ℤ
  quantity : ℤ
  low_stock_threshold : ℤ
deriving Repr, DecidableEq

/-- Row of the inventory_logs table (models.InventoryLog), the append-only audit log. -/
structure InventoryLogRow where
  product_id : ℤ
  change_quantity : ℤ
  new_quantity : ℤ
  reason : String
deriving Repr, DecidableEq

/-- Row of the orders table (models.Order); total_amount in cents. -/
structure OrderRow where
  id : ℤ
  order_date : ℤ
  customer_name : Option String
  status : String
  total_amount : ℤ
deriving Repr, DecidableEq

/-- Row of the order_items table (models.OrderItem); money in cents. -/
structure OrderItemRow where
  order_id : ℤ
  product_id : ℤ
  quantity : ℤ
  price_at_sale : ℤ
  subtotal : ℤ
deriving Repr, DecidableEq

/-- The database state: the persisted relations plus autoincrement counters
and the clock value substituted for func.now() while an operation runs. -/
structure DB where
  categories : List CategoryRow
  products : List ProductRow
  inventory : List InventoryRow
  inventory_logs : List InventoryLogRow
  orders : List OrderRow
  order_items : List OrderItemRow
  next_product_id : ℤ
  next_order_id : ℤ
  now : ℤ
deriving Repr, DecidableEq

/-- Replace the first element satisfying p by its image under f, the effect
of mutating the row returned by query(...).filter(...).first(). -/
def replaceFirst {α : Type} (p : α → Bool) (f : α → α) : List α → List α
  | [] => []
  | r :: rs => if p r then f r :: rs else r :: replaceFirst p f rs

/-- crud.get_product: first products row with the given id. -/
def get_product (db : DB) (product_id : ℤ) : Option ProductRow :=
  db.products.find? (fun r => decide (r.id = product_id))

/-- crud.get_inventory_by_product_id: first inventory row for the product. -/
def get_inventory_by_product_id (db : DB) (product_id : ℤ) : Option InventoryRow :=
  db.inventory.find? (fun r => decide (r.product_id = product_id))

/-- Current stock quantity of a product, 0 when it has no stock record
(the availability the code reports in its insufficient-stock error). -/
def qtyOf (db : DB) (product_id : ℤ) : ℤ :=
  match get_inventory_by_product_id db product_id with
  | some r => r.quantity
  | none => 0

/-- Price of a product as read during validation, 0 when absent. -/
def priceOf (db : DB) (product_id : ℤ) : ℤ :=
  match get_product db product_id with
  | some p => p.price
  | none => 0

/-- schemas.product.ProductCreate. -/
structure ProductCreate where
  name : String
  description : Option String
  price : ℤ
  category_id : ℤ
  sku : Option String
  initial_quantity : ℤ
  low_stock_threshold : Option ℤ
deriving Repr, DecidableEq

/-- Durable state at the first db.commit() inside crud.create_product
(crud.py line 92): the product row alone is persisted; a storage failure
in the remainder of the function leaves exactly this state. -/
def create_product_afterFirstCommit (db : DB) (p : ProductCreate) : DB :=
  { db with
      products := db.products ++
        [{ id := db.next_product_id, name := p.name, description := p.description,
           price := p.price, category_id := p.category_id, sku := p.sku }],
      next_product_id := db.next_product_id + 1 }

/-- crud.create_product, both commits succeeding: product row, then the
stock record at initial_quantity and the "Initial stock" log entry. -/
def create_product (db : DB) (p : ProductCreate) : DB :=
  let db1 := create_product_afterFirstCommit db p
  let pid := db.next_product_id
  { db1 with
      inventory := db1.inventory ++
        [{ product_id := pid, quantity := p.initial_quantity,
           low_stock_threshold := p.low_stock_threshold.getD 10 }],
      inventory_logs := db1.inventory_logs ++
        [{ product_id := pid, change_quantity := p.initial_quantity,
           new_quantity := p.initial_quantity, reason := "Initial stock" }] }

/-- schemas.inventory.InventoryUpdate. -/
structure InventoryUpdate where
  quantity_change : Option ℤ
  absolute_quantity : Option ℤ
  reason : Option String
  low_stock_threshold : Option ℤ
deriving Repr, DecidableEq

/-- The pre-clamp new quantity computed by crud.update_inventory: relative
delta when quantity_change is given, else the absolute target, else the
original value. -/
def rawNewQuantity (original : ℤ) (u : InventoryUpdate) : ℤ :=
  match u.quantity_change with
  | some qc => original + qc
  | none =>
    match u.absolute_quantity with
    | some a => a
    | none => original

/-- The condition under which crud.update_inventory writes a log entry
(crud.py line 205). -/
def shouldLogUpdate (original change : ℤ) (u : InventoryUpdate) : Bool :=
  decide (change ≠ 0) ||
  (match u.quantity_change with | some qc => decide (qc ≠ 0) | none => false) ||
  (match u.absolute_quantity with | some a => decide (a ≠ original) | none => false)

/-- Body of crud.update_inventory once the stock record is found: clamp the
computed quantity at zero, rewrite the record, and append a log entry when
warranted. -/
def update_inventory_found (db : DB) (product_id : ℤ) (u : InventoryUpdate)
    (inv : InventoryRow) : DB :=
  let original := inv.quantity
  let computed := rawNewQuantity original u
  let nq := if computed < 0 then 0 else computed
  let change := nq - original
  let newThreshold :=
    match u.low_stock_threshold with
    | some t => t
    | none => inv.low_stock_threshold
  let newLogs :=
    if shouldLogUpdate original change u then
      db.inventory_logs ++
        [{ product_id := product_id, change_quantity := change,
           new_quantity := nq, reason := u.reason.getD "Manual update" }]
    else db.inventory_logs
  { db with
      inventory := replaceFirst (fun r => decide (r.product_id = product_id))
        (fun r => { r with quantity := nq, low_stock_threshold := newThreshold })
        db.inventory,
      inventory_logs := newLogs }

/-- crud.update_inventory: manual stock adjustment.  Returns none when the
product has no stock record. -/
def update_inventory (db : DB) (product_id : ℤ) (u : InventoryUpdate) : Option DB :=
  match get_inventory_by_product_id db product_id with
  | none => none
  | some inv => some (update_inventory_found db product_id u inv)

/-- schemas.product.ProductUpdate: partial update, none means field unset. -/
structure ProductUpdate where
  name : Option String
  description : Option String
  price : Option ℤ
  category_id : Option ℤ
  sku : Option String
deriving Repr, DecidableEq

/-- Apply the set fields of a ProductUpdate to a product row, the effect of
the setattr loop in crud.update_product. -/
def applyProductUpdate (u : ProductUpdate) (r : ProductRow) : ProductRow :=
  { r with
      name := u.name.getD r.name,
      description := match u.description with | some d => some d | none => r.description,
      price := u.price.getD r.price,
      category_id := u.category_id.getD r.category_id,
      sku := match u.sku with | some s => some s | none => r.sku }

/-- crud.update_product: returns none when the product is missing, else the
state with the set fields applied to the product row. -/
def update_product (db : DB) (product_id : ℤ) (u : ProductUpdate) : Option DB :=
  match get_product db product_id with
  | none => none
  | some _ =>
    some { db with
             products := replaceFirst (fun r => decide (r.id = product_id))
               (applyProductUpdate u) db.products }

/-- schemas.order.OrderItemCreate; the schema enforces quantity > 0. -/
structure OrderItemCreate where
  product_id : ℤ
  quantity : ℤ
deriving Repr, DecidableEq

/-- schemas.order.OrderCreate; the schema enforces a nonempty item list. -/
structure OrderCreate where
  customer_name : Option String
  items : List OrderItemCreate
deriving Repr, DecidableEq

/-- The ValueError raised by crud.create_order during validation: missing
product, or insufficient stock with the reported available quantity. -/
inductive OrderError where
  | productNotFound (product_id : ℤ)
  | insufficientStock (product_id : ℤ) (available : ℤ) (requested : ℤ)
deriving Repr, DecidableEq

/-- One element of order_items_to_create in crud.create_order. -/
structure PendingItem where
  product_id : ℤ
  quantity : ℤ
  price_at_sale : ℤ
  subtotal : ℤ
deriving Repr, DecidableEq

/-- One element of inventory_updates_needed in crud.create_order:
(product_id, quantity to deduct, quantity observed at validation). -/
structure DeductionReq where
  product_id : ℤ
  quantity : ℤ
  orig_qty : ℤ
deriving Repr, DecidableEq

/-- The read-only validation loop of crud.create_order (lines 248-267):
per line, the product must exist and the stock record must cover the
requested quantity; accumulates the order total, the pending order items
with price snapshots, and the deductions to apply at commit. -/
def validateItems (db : DB) : List OrderItemCreate →
    Except OrderError (ℤ × List PendingItem × List DeductionReq)
  | [] => .ok (0, [], [])
  | it :: rest =>
    match get_product db it.product_id with
    | none => .error (.productNotFound it.product_id)
    | some prod =>
      match get_inventory_by_product_id db it.product_id with
      | none => .error (.insufficientStock it.product_id 0 it.quantity)
      | some inv =>
        if inv.quantity < it.quantity then
          .error (.insufficientStock it.product_id inv.quantity it.quantity)
        else
          match validateItems db rest with
          | .error e => .error e
          | .ok (t, pis, ups) =>
            .ok (prod.price * it.quantity + t,
                 { product_id := it.product_id, quantity := it.quantity,
                   price_at_sale := prod.price,
                   subtotal := prod.price * it.quantity } :: pis,
                 { product_id := it.product_id, quantity := it.quantity,
                   orig_qty := inv.quantity } :: ups)

/-- Reason string written by the sale-deduction log entries. -/
def saleReason (order_id : ℤ) : String := "Sale - Order ID: " ++ toString order_id

/-- The commit-phase inventory loop of crud.create_order (lines 286-301):
re-fetch each stock record, deduct without re-checking availability, and
append one log entry; records found missing are silently skipped. -/
def applyDeductions (db : DB) (order_id : ℤ) : List DeductionReq → DB
  | [] => db
  | d :: rest =>
    match get_inventory_by_product_id db d.product_id with
    | none => applyDeductions db order_id rest
    | some inv =>
      let nq := inv.quantity - d.quantity
      let db2 : DB :=
        { db with
            inventory := replaceFirst (fun r => decide (r.product_id = d.product_id))
              (fun r => { r with quantity := nq }) db.inventory,
            inventory_logs := db.inventory_logs ++
              [{ product_id := d.product_id, change_quantity := -d.quantity,
                 new_quantity := nq, reason := saleReason order_id }] }
      applyDeductions db2 order_id rest

/-- Result of crud.create_order: either the new durable state with the new
order id, or the raised error together with the unchanged durable state
(the validation phase performs no writes). -/
inductive OrderResult where
  | ok (db : DB) (order_id : ℤ)
  | err (e : OrderError) (db : DB)
deriving Repr, DecidableEq

/-- The durable state at the first db.commit() inside crud.create_order
(line 276): the completed order row alone is persisted, with no order
items, no stock deduction and no log entries; a storage failure in the
remainder of the function leaves exactly this state.  Returns none when
validation fails before the commit. -/
def create_order_afterFirstCommit (db : DB) (o : OrderCreate) : Option DB :=
  match validateItems db o.items with
  | .error _ => none
  | .ok (total, _, _) =>
    some { db with
             orders := db.orders ++
               [{ id := db.next_order_id, order_date := db.now,
                  customer_name := o.customer_name, status := "completed",
                  total_amount := total }],
             next_order_id := db.next_order_id + 1 }

/-- State of crud.create_order after the order row is committed (line 276)
and the order items are added: the completed order row with its total and
one order item per validated line, before the inventory loop runs. -/
def create_order_commitBase (db : DB) (o : OrderCreate) (total : ℤ)
    (pendingItems : List PendingItem) : DB :=
  let oid := db.next_order_id
  { db with
      orders := db.orders ++
        [{ id := oid, order_date := db.now, customer_name := o.customer_name,
           status := "completed", total_amount := total }],
      next_order_id := oid + 1,
      order_items := db.order_items ++
        pendingItems.map (fun pi =>
          { order_id := oid, product_id := pi.product_id, quantity := pi.quantity,
            price_at_sale := pi.price_at_sale, subtotal := pi.subtotal }) }

/-- crud.create_order: validation pass, then order row (first commit),
order items, and the deduction loop with its log entries (second commit). -/
def create_order (db : DB) (o : OrderCreate) : OrderResult :=
  match validateItems db o.items with
  | .error e => .err e db
  | .ok (total, pendingItems, ups) =>
    .ok (applyDeductions (create_order_commitBase db o total pendingItems)
          db.next_order_id ups)
      db.next_order_id

/-- Durable state an OrderResult leaves behind. -/
def resultDB : OrderResult → DB
  | .ok d _ => d
  | .err _ d => d

/-- The three mutating operations of the core, for reachability statements. -/
inductive Op where
  | createProduct (p : ProductCreate)
  | updateInventory (product_id : ℤ) (u : InventoryUpdate)
  | createOrder (o : OrderCreate)
deriving Repr, DecidableEq

/-- Apply one operation to the durable state; operations that fail leave
the state unchanged. -/
def applyOp (db : DB) : Op → DB
  | .createProduct p => create_product db p
  | .updateInventory pid u => (update_inventory db pid u).getD db
  | .createOrder o => resultDB (create_order db o)

/-- The empty initial database. -/
def initialDB : DB :=
  { categories := [], products := [], inventory := [], inventory_logs := [],
    orders := [], order_items := [], next_product_id := 1, next_order_id := 1,
    now := 0 }

/-- State reached by a sequence of operations from the empty database. -/
def runOps (ops : List Op) : DB := ops.foldl applyOp initialDB

/-- Log entries a step from db to db2 appended for the given product. -/
def appendedLogsFor (db db2 : DB) (product_id : ℤ) : List InventoryLogRow :=
  (db2.inventory_logs.drop db.inventory_logs.length).filter
    (fun l => decide (l.product_id = product_id))

/-- A list of log entries replays the quantity evolution from q0 to q1:
each entry records the running quantity it results in, and the chain ends
at q1.  An actual quantity change without a matching entry, or an entry
with a wrong delta or wrong resulting quantity, breaks the chain. -/
def logChainB : ℤ → List InventoryLogRow → ℤ → Bool
  | q0, [], q1 => decide (q1 = q0)
  | q0, l :: ls, q1 =>
    decide (l.new_quantity = q0 + l.change_quantity) && logChainB l.new_quantity ls q1

/-- crud.get_revenue_for_period: the summed subtotal (in cents) of order
items joined to their order and product, with the order date inside the
inclusive range, optionally joined to the category of the product and
filtered to a category id; an empty sum is 0.  Also returns the name of
the filter category when one is given and exists. -/
def get_revenue_for_period (db : DB) (start_date end_date : ℤ)
    (category_id : Option ℤ) : ℤ × Option String :=
  let rows := db.order_items.filter (fun it =>
    match db.orders.find? (fun o => decide (o.id = it.order_id)),
          get_product db it.product_id with
    | some o, some p =>
      decide (start_date ≤ o.order_date) && decide (o.order_date ≤ end_date) &&
      (match category_id with
       | some c =>
         (db.categories.find? (fun cat => decide (cat.id = p.category_id))).isSome &&
           decide (p.category_id = c)
       | none => true)
    | _, _ => false)
  let total := (rows.map (fun it => it.subtotal)).sum
  let category_name :=
    match category_id with
    | some c =>
      match db.categories.find? (fun cat => decide (cat.id = c)) with
      | some cat => some cat.name
      | none => none
    | none => none
  (total, category_name)

/-- The percentage_change value of the revenue-comparison endpoint: either
a numeric percentage or the float("inf") sentinel. -/
inductive PercentageChange where
  | num (q : ℚ)
  | infinite
deriving Repr, DecidableEq

/-- Round a rational to the nearest integer with ties to even, the rounding
Python round applies to Decimal values. -/
def roundHalfEven (x : ℚ) : ℤ :=
  let n := ⌊x⌋
  let r := x - n
  if r < 1/2 then n
  else if 1/2 < r then n + 1
  else if n % 2 = 0 then n else n + 1

/-- Round a rational to two decimal places, ties to even. -/
def roundHalfEven2 (x : ℚ) : ℚ := (roundHalfEven (x * 100) : ℚ) / 100

/-- Result of the revenue-comparison endpoint, revenues in cents. -/
structure ComparisonResult where
  period1_revenue : ℤ
  period1_category_name : Option String
  period2_revenue : ℤ
  period2_category_name : Option String
  difference : ℤ
  percentage_change : PercentageChange
deriving Repr, DecidableEq

/-- sales_reports.get_revenue_comparison_report (lines 130-156): defaults
the second category to the first, fetches both period revenues, and
computes difference and percentage_change; the Decimal division of the
positive-rev1 branch is modelled as exact rational division. -/
def get_revenue_comparison_report (db : DB) (p1_start p1_end p2_start p2_end : ℤ)
    (category_id1 category_id2 : Option ℤ) : ComparisonResult :=
  let cid2 :=
    match category_id1, category_id2 with
    | some c, none => some c
    | _, c2 => c2
  let r1 := get_revenue_for_period db p1_start p1_end category_id1
  let r2 := get_revenue_for_period db p2_start p2_end cid2
  let rev1 := r1.1
  let rev2 := r2.1
  let difference := rev2 - rev1
  let pc : PercentageChange :=
    if 0 < rev1 then
      .num (roundHalfEven2 (((difference : ℚ) / (rev1 : ℚ)) * 100))
    else if 0 < rev2 then .infinite
    else .num 0
  { period1_revenue := rev1, period1_category_name := r1.2,
    period2_revenue := rev2, period2_category_name := r2.2,
    difference := difference, percentage_change := pc }

/-! Helper lemmas about find? and replaceFirst. -/

theorem find?_cons_eq {α : Type} (p : α → Bool) (a : α) (as : List α) :
    (a :: as).find? p = if p a then some a else as.find? p := by
  by_cases h : p a <;> simp [List.find?, h]

theorem find?_replaceFirst_same {α : Type} (p : α → Bool) (f : α → α) (l : List α)
    (r : α) (h : l.find? p = some r) (hf : p (f r) = true) :
    (replaceFirst p f l).find? p = some (f r) := by
  induction l with
  | nil => simp [List.find?] at h
  | cons a as ih =>
    rw [find?_cons_eq] at h
    unfold replaceFirst
    by_cases hp : p a
    · rw [if_pos hp] at h
      injection h with h
      subst h
      rw [if_pos hp, find?_cons_eq, if_pos hf]
    · rw [if_neg hp] at h
      rw [if_neg hp, find?_cons_eq, if_neg hp]
      exact ih h

theorem find?_replaceFirst_of_ne (l : List InventoryRow) (pid pid2 : ℤ)
    (f : InventoryRow → InventoryRow) (hf : ∀ r, (f r).product_id = r.product_id)
    (hne : pid ≠ pid2) :
    (replaceFirst (fun r => decide (r.product_id = pid2)) f l).find?
        (fun r => decide (r.product_id = pid)) =
      l.find? (fun r => decide (r.product_id = pid)) := by
  induction l with
  | nil => rfl
  | cons a as ih =>
    unfold replaceFirst
    by_cases h2 : a.product_id = pid2
    · rw [if_pos (by simpa using h2)]
      have hfa : (f a).product_id = pid2 := by rw [hf]; exact h2
      have hnot1 : ¬ (f a).product_id = pid := by rw [hfa]; exact fun hx => hne hx.symm
      have hnot2 : ¬ a.product_id = pid := by rw [h2]; exact fun hx => hne hx.symm
      rw [find?_cons_eq, find?_cons_eq, if_neg (by simpa using hnot1),
        if_neg (by simpa using hnot2)]
    · rw [if_neg (by simpa using h2)]
      by_cases h1 : a.product_id = pid
      · rw [find?_cons_eq, find?_cons_eq, if_pos (by simpa using h1),
          if_pos (by simpa using h1)]
      · rw [find?_cons_eq, find?_cons_eq, if_neg (by simpa using h1),
          if_neg (by simpa using h1)]
        exact ih

theorem find?_append_singleton {α : Type} (p : α → Bool) (l : List α) (r : α) :
    (l ++ [r]).find? p =
      match l.find? p with
      | some s => some s
      | none => if p r then some r else none := by
  induction l with
  | nil => simp [find?_cons_eq]
  | cons a as ih =>
    by_cases hp : p a
    · simp [find?_cons_eq, hp]
    · simpa [find?_cons_eq, hp] using ih

/-! Concrete fixtures used by the closed theorems and witnesses. -/

/-- A one-product database: product 1 priced 10.00 with 5 units in stock. -/
def dbFix : DB :=
  { categories := [{ id := 1, name := "General", description := none }],
    products := [{ id := 1, name := "Widget", description := none, price := 1000,
                   category_id := 1, sku := none }],
    inventory := [{ product_id := 1, quantity := 5, low_stock_threshold := 10 }],
    inventory_logs := [], orders := [], order_items := [],
    next_product_id := 2, next_order_id := 1, now := 0 }

/-- An order with two lines for product 1, each requesting 5 of the 5 in stock. -/
def orderDupLines : OrderCreate := { customer_name := none, items := [⟨1, 5⟩, ⟨1, 5⟩] }

/-- C1: the no-oversell property fails on the code.  Against product 1 with
starting quantity 5, the single order with two lines each requesting 5
passes validation (each line is checked against the same unmodified
snapshot) and the commit loop deducts both lines without re-checking
availability: the order succeeds, the summed deduction is 10 > 5, and the
stock record ends at -5.  The same unlocked read-then-write sequence also
admits the two-concurrent-orders oversell the claim excludes. -/
theorem create_order_oversells_on_duplicate_lines :
    qtyOf dbFix 1 = 5 ∧
    create_order dbFix orderDupLines = .ok (resultDB (create_order dbFix orderDupLines)) 1 ∧
    ((resultDB (create_order dbFix orderDupLines)).inventory_logs.map
        (fun l => l.change_quantity)).sum = -10 ∧
    qtyOf (resultDB (create_order dbFix orderDupLines)) 1 = -5 := by decide

/-- A valid single-line order for 2 units of product 1. -/
def orderSmall : OrderCreate := { customer_name := none, items := [⟨1, 2⟩] }

/-- Durable state of create_order on dbFix and orderSmall at its first commit. -/
def dbOrderMid : DB := (create_order_afterFirstCommit dbFix orderSmall).getD dbFix

/-- C3: the commit of create_order is not a single atomic transaction.  The
order row is committed on its own at crud.py line 276: at that durability
point the completed Order with its total already persists while no order
item, no stock deduction and no log entry exists, so a storage failure in
the remainder of the function leaves exactly this partial write rather
than rolling the order back. -/
theorem create_order_commits_order_row_separately :
    create_order_afterFirstCommit dbFix orderSmall = some dbOrderMid ∧
    dbOrderMid.orders = dbFix.orders ++
      [{ id := 1, order_date := 0, customer_name := none, status := "completed",
         total_amount := 2000 }] ∧
    dbOrderMid.order_items = dbFix.order_items ∧
    dbOrderMid.inventory = dbFix.inventory ∧
    dbOrderMid.inventory_logs = dbFix.inventory_logs := by decide

/-- A product-creation request with 7 initial units. -/
def productCreateFix : ProductCreate :=
  { name := "Gadget", description := none, price := 1500, category_id := 1,
    sku := none, initial_quantity := 7, low_stock_threshold := none }

/-- Durable state of create_product on the empty database at its first commit. -/
def dbProductMid : DB := create_product_afterFirstCommit initialDB productCreateFix

/-- C6: the three writes of create_product are not one transaction.  The
product row is committed on its own at crud.py line 92: at that durability
point the product persists while its stock record and its Initial stock
log entry do not exist yet, so a storage failure in the second transaction
leaves the product alone rather than rolling all three writes back.  The
full function does produce all three writes when both commits succeed. -/
theorem create_product_commits_product_row_separately :
    dbProductMid.products = [{ id := 1, name := "Gadget", description := none,
                               price := 1500, category_id := 1, sku := none }] ∧
    get_inventory_by_product_id dbProductMid 1 = none ∧
    dbProductMid.inventory_logs = [] ∧
    (create_product initialDB productCreateFix).inventory =
      [{ product_id := 1, quantity := 7, low_stock_threshold := 10 }] ∧
    (create_product initialDB productCreateFix).inventory_logs =
      [{ product_id := 1, change_quantity := 7, new_quantity := 7,
         reason := "Initial stock" }] := by decide

/-- C8: price snapshot stability.  update_product only rewrites fields of
the matching products row; the order_items and orders relations of the
resulting state are the ones of the input state, so the price_at_sale and
subtotal of every committed order line and the total_amount of every
committed order are unchanged by any later product update, price changes
included. -/
theorem update_product_preserves_committed_orders (db : DB) (product_id : ℤ)
    (u : ProductUpdate) :
    ((update_product db product_id u).getD db).order_items = db.order_items ∧
    ((update_product db product_id u).getD db).orders = db.orders := by
  unfold update_product
  cases get_product db product_id <;> simp

theorem inv_pid_of_find (db : DB) (pid : ℤ) (inv : InventoryRow)
    (hinv : get_inventory_by_product_id db pid = some inv) : inv.product_id = pid := by
  unfold get_inventory_by_product_id at hinv
  have := List.find?_some hinv
  simpa using this

theorem qtyOf_replace (db db2 : DB) (pid : ℤ) (inv : InventoryRow)
    (f : InventoryRow → InventoryRow)
    (hinv : get_inventory_by_product_id db pid = some inv)
    (hf : (f inv).product_id = inv.product_id)
    (h2 : db2.inventory = replaceFirst (fun r => decide (r.product_id = pid)) f db.inventory) :
    qtyOf db2 pid = (f inv).quantity := by
  unfold qtyOf get_inventory_by_product_id
  rw [h2, find?_replaceFirst_same _ _ _ _ hinv]
  rw [hf]
  simpa using inv_pid_of_find db pid inv hinv

/-- C5: manual-adjustment clamp.  Whenever the product has a stock record,
update_inventory succeeds (it never raises over a quantity driven below
zero), the resulting quantity is never negative, a pre-clamp value below
zero is clamped to exactly 0, and every log entry the call appends records
the change actually applied (resulting quantity minus original quantity)
and the resulting quantity itself. -/
theorem update_inventory_clamps_at_zero (db : DB) (product_id : ℤ)
    (u : InventoryUpdate) (inv : InventoryRow)
    (hinv : get_inventory_by_product_id db product_id = some inv) :
    ∃ db2, update_inventory db product_id u = some db2 ∧
      0 ≤ qtyOf db2 product_id ∧
      (rawNewQuantity inv.quantity u < 0 → qtyOf db2 product_id = 0) ∧
      ∀ log ∈ db2.inventory_logs.drop db.inventory_logs.length,
        log.product_id = product_id ∧
        log.change_quantity = qtyOf db2 product_id - inv.quantity ∧
        log.new_quantity = qtyOf db2 product_id := by
  unfold update_inventory update_inventory_found
  rw [hinv]
  dsimp only
  refine ⟨_, rfl, ?_, ?_, ?_⟩ <;>
    rw [qtyOf_replace db _ product_id inv _ hinv rfl rfl]
  · dsimp only
    split <;> omega
  · intro hneg
    dsimp only
    rw [if_pos hneg]
  · by_cases hsl : shouldLogUpdate inv.quantity
      ((if rawNewQuantity inv.quantity u < 0 then 0 else rawNewQuantity inv.quantity u) - inv.quantity) u
    · dsimp only
      rw [if_pos hsl, List.drop_left]
      intro log hlog
      simp at hlog
      subst hlog
      exact ⟨rfl, rfl, rfl⟩
    · dsimp only
      rw [if_neg hsl, List.drop_length]
      intro log hlog
      cases hlog

/-- The dbFix state with product 1 holding 3 units, matching the worked
example of the spec. -/
def dbClamp : DB :=
  { dbFix with inventory := [{ product_id := 1, quantity := 3, low_stock_threshold := 10 }] }

/-- A manual adjustment with a relative delta of -10. -/
def adjMinus10 : InventoryUpdate :=
  { quantity_change := some (-10), absolute_quantity := none, reason := none,
    low_stock_threshold := none }

/-- Witness for C5 at the example of the spec: quantity 3 adjusted by -10
yields quantity 0 with a single log entry recording change -3, new 0. -/
theorem update_inventory_clamps_at_zero_witness :
    (∃ db2, update_inventory dbClamp 1 adjMinus10 = some db2 ∧
      0 ≤ qtyOf db2 1 ∧
      (rawNewQuantity 3 adjMinus10 < 0 → qtyOf db2 1 = 0) ∧
      ∀ log ∈ db2.inventory_logs.drop dbClamp.inventory_logs.length,
        log.product_id = 1 ∧
        log.change_quantity = qtyOf db2 1 - 3 ∧
        log.new_quantity = qtyOf db2 1) ∧
    (update_inventory dbClamp 1 adjMinus10).map
        (fun d => (qtyOf d 1, d.inventory_logs.map (fun l => (l.change_quantity, l.new_quantity)))) =
      some (0, [(-3, 0)]) :=
  ⟨update_inventory_clamps_at_zero dbClamp 1 adjMinus10 ⟨1, 3, 10⟩ (by decide), by decide⟩

/-- C9: revenue comparison.  For every database and every pair of date
ranges (and optional category filters), the reported difference equals
period-2 revenue minus period-1 revenue; when both revenues are zero the
percentage change is the number 0; and when period-1 revenue is zero while
period-2 revenue is positive, the percentage change is the infinite
sentinel rather than any division-by-zero failure. -/
theorem revenue_comparison_zero_cases (db : DB) (p1_start p1_end p2_start p2_end : ℤ)
    (category_id1 category_id2 : Option ℤ) :
    (get_revenue_comparison_report db p1_start p1_end p2_start p2_end
        category_id1 category_id2).difference =
      (get_revenue_comparison_report db p1_start p1_end p2_start p2_end
        category_id1 category_id2).period2_revenue -
      (get_revenue_comparison_report db p1_start p1_end p2_start p2_end
        category_id1 category_id2).period1_revenue ∧
    ((get_revenue_comparison_report db p1_start p1_end p2_start p2_end
        category_id1 category_id2).period1_revenue = 0 ∧
     (get_revenue_comparison_report db p1_start p1_end p2_start p2_end
        category_id1 category_id2).period2_revenue = 0 →
     (get_revenue_comparison_report db p1_start p1_end p2_start p2_end
        category_id1 category_id2).percentage_change = .num 0) ∧
    ((get_revenue_comparison_report db p1_start p1_end p2_start p2_end
        category_id1 category_id2).period1_revenue = 0 ∧
     0 < (get_revenue_comparison_report db p1_start p1_end p2_start p2_end
        category_id1 category_id2).period2_revenue →
     (get_revenue_comparison_report db p1_start p1_end p2_start p2_end
        category_id1 category_id2).percentage_change = .infinite) := by
  unfold get_revenue_comparison_report
  dsimp only
  refine ⟨rfl, ?_, ?_⟩
  · rintro ⟨h1, h2⟩
    rw [h1, h2]
    norm_num
  · rintro ⟨h1, h2⟩
    rw [if_neg (by omega), if_pos h2]

/-- A database holding one committed order of 100.00 dated day 50. -/
def dbRevenue : DB :=
  { categories := [{ id := 1, name := "General", description := none }],
    products := [{ id := 1, name := "Widget", description := none, price := 5000,
                   category_id := 1, sku := none }],
    inventory := [{ product_id := 1, quantity := 5, low_stock_threshold := 10 }],
    inventory_logs := [],
    orders := [{ id := 1, order_date := 50, customer_name := none,
                 status := "completed", total_amount := 10000 }],
    order_items := [{ order_id := 1, product_id := 1, quantity := 2,
                      price_at_sale := 5000, subtotal := 10000 }],
    next_product_id := 2, next_order_id := 2, now := 60 }

/-- Witness for C9 at the sentinel example of the spec: period 1 revenue 0,
period 2 revenue 100.00, so the difference is 100.00 and the percentage
change is the infinite sentinel. -/
theorem revenue_comparison_zero_cases_witness :
    (get_revenue_comparison_report dbRevenue 0 10 40 60 none none).period1_revenue = 0 ∧
    (get_revenue_comparison_report dbRevenue 0 10 40 60 none none).period2_revenue = 10000 ∧
    (get_revenue_comparison_report dbRevenue 0 10 40 60 none none).difference = 10000 ∧
    (get_revenue_comparison_report dbRevenue 0 10 40 60 none none).percentage_change = .infinite :=
  ⟨by decide, by decide, by decide,
    (revenue_comparison_zero_cases dbRevenue 0 10 40 60 none none).2.2 ⟨by decide, by decide⟩⟩

/-- A line failing validation: its product is missing, or the available
quantity (0 without a stock record) is below the requested quantity. -/
def BadLine (db : DB) (it : OrderItemCreate) : Prop :=
  get_product db it.product_id = none ∨ qtyOf db it.product_id < it.quantity

instance (db : DB) (it : OrderItemCreate) : Decidable (BadLine db it) := by
  unfold BadLine
  infer_instance

/-- The raised error identifies a failing line of the request: a
product-not-found error names a requested product that is indeed absent,
and an insufficient-stock error names a requested product and quantity
with the true available quantity below the request. -/
def ErrIdentifies (db : DB) (items : List OrderItemCreate) : OrderError → Prop
  | .productNotFound pid =>
      (∃ it ∈ items, it.product_id = pid) ∧ get_product db pid = none
  | .insufficientStock pid avail req =>
      (∃ it ∈ items, it.product_id = pid ∧ it.quantity = req) ∧
      avail = qtyOf db pid ∧ avail < req

instance (db : DB) (items : List OrderItemCreate) (e : OrderError) :
    Decidable (ErrIdentifies db items e) := by
  unfold ErrIdentifies
  cases e <;> infer_instance

theorem errIdentifies_lift (db : DB) (it : OrderItemCreate)
    (items : List OrderItemCreate) (e : OrderError)
    (h : ErrIdentifies db items e) : ErrIdentifies db (it :: items) e := by
  cases e with
  | productNotFound pid =>
    obtain ⟨⟨j, hj, hjp⟩, hnone⟩ := h
    exact ⟨⟨j, List.mem_cons_of_mem it hj, hjp⟩, hnone⟩
  | insufficientStock pid avail req =>
    obtain ⟨⟨j, hj, hjp⟩, hrest⟩ := h
    exact ⟨⟨j, List.mem_cons_of_mem it hj, hjp⟩, hrest⟩

theorem validateItems_error_of_bad (db : DB) (items : List OrderItemCreate)
    (hq : ∀ it ∈ items, 0 < it.quantity)
    (hbad : ∃ it ∈ items, BadLine db it) :
    ∃ e, validateItems db items = .error e ∧ ErrIdentifies db items e := by
  induction items with
  | nil =>
    obtain ⟨it, hit, _⟩ := hbad
    exact absurd hit (List.not_mem_nil it)
  | cons it rest ih =>
    unfold validateItems
    cases hp : get_product db it.product_id with
    | none =>
      refine ⟨.productNotFound it.product_id, rfl, ?_⟩
      exact ⟨⟨it, List.mem_cons_self it rest, rfl⟩, hp⟩
    | some prod =>
      cases hi : get_inventory_by_product_id db it.product_id with
      | none =>
        refine ⟨.insufficientStock it.product_id 0 it.quantity, rfl, ?_⟩
        refine ⟨⟨it, List.mem_cons_self it rest, rfl, rfl⟩, ?_, ?_⟩
        · unfold qtyOf
          rw [hi]
        · exact hq it (List.mem_cons_self it rest)
      | some inv =>
        dsimp only
        by_cases hlt : inv.quantity < it.quantity
        · rw [if_pos hlt]
          refine ⟨.insufficientStock it.product_id inv.quantity it.quantity, rfl, ?_⟩
          refine ⟨⟨it, List.mem_cons_self it rest, rfl, rfl⟩, ?_, hlt⟩
          unfold qtyOf
          rw [hi]
        · rw [if_neg hlt]
          have hnotbad : ¬ BadLine db it := by
            unfold BadLine
            push_neg
            refine ⟨fun hc => ?_, ?_⟩
            · rw [hp] at hc
              cases hc
            · unfold qtyOf
              rw [hi]
              dsimp only
              omega
          have hbad2 : ∃ j ∈ rest, BadLine db j := by
            obtain ⟨j, hj, hbj⟩ := hbad
            rcases List.mem_cons.mp hj with hje | hjr
            · subst hje
              exact absurd hbj hnotbad
            · exact ⟨j, hjr, hbj⟩
          obtain ⟨e, herr, hid⟩ := ih (fun j hj => hq j (List.mem_cons_of_mem it hj)) hbad2
          rw [herr]
          exact ⟨e, rfl, errIdentifies_lift db it rest e hid⟩

/-- C2: whole-order rejection.  For every order request (with the
schema-enforced positive line quantities) in which some line references a
missing product or requests more than the available quantity,
create_order raises a validation error that identifies a failing line
(product not found, or insufficient stock with the true availability),
and the durable state it leaves is exactly the input state: no Order,
OrderLine or StockLogEntry row is created and no stock quantity changes
for that attempt. -/
theorem create_order_rejects_invalid_order (db : DB) (o : OrderCreate)
    (hq : ∀ it ∈ o.items, 0 < it.quantity)
    (hbad : ∃ it ∈ o.items, BadLine db it) :
    ∃ e, create_order db o = .err e db ∧ ErrIdentifies db o.items e := by
  obtain ⟨e, herr, hid⟩ := validateItems_error_of_bad db o.items hq hbad
  refine ⟨e, ?_, hid⟩
  unfold create_order
  rw [herr]

/-- An order requesting 10 units of product 1, of which only 5 exist. -/
def orderTooBig : OrderCreate := { customer_name := none, items := [⟨1, 10⟩] }

/-- Witness for C2: the over-large order against dbFix is rejected with an
identifying error and the state is returned unchanged. -/
theorem create_order_rejects_invalid_order_witness :
    ∃ e, create_order dbFix orderTooBig = .err e dbFix ∧
      ErrIdentifies dbFix orderTooBig.items e :=
  create_order_rejects_invalid_order dbFix orderTooBig (by decide) (by decide)

/-- A line that passes validation: product and stock record exist and the
stock covers the requested quantity. -/
def GoodLine (db : DB) (it : OrderItemCreate) : Prop :=
  ∃ p inv, get_product db it.product_id = some p ∧
    get_inventory_by_product_id db it.product_id = some inv ∧
    it.quantity ≤ inv.quantity

instance (db : DB) (it : OrderItemCreate) : Decidable (GoodLine db it) := by
  unfold GoodLine
  cases hp : get_product db it.product_id with
  | none => exact .isFalse (by rintro ⟨p, inv, hc, _⟩; cases hc)
  | some p =>
    cases hi : get_inventory_by_product_id db it.product_id with
    | none => exact .isFalse (by rintro ⟨q, inv, _, hc, _⟩; cases hc)
    | some inv =>
      by_cases hle : it.quantity ≤ inv.quantity
      · exact .isTrue ⟨p, inv, rfl, rfl, hle⟩
      · refine .isFalse ?_
        rintro ⟨q, jnv, hq, hj, hle2⟩
        injection hj with hj
        subst hj
        exact hle hle2

theorem validateItems_error_append_good (db : DB) (pre rest : List OrderItemCreate)
    (e : OrderError) (hgood : ∀ j ∈ pre, GoodLine db j)
    (herr : validateItems db rest = .error e) :
    validateItems db (pre ++ rest) = .error e := by
  induction pre with
  | nil => simpa using herr
  | cons j pre ih =>
    obtain ⟨p, inv, hp, hi, hle⟩ := hgood j (List.mem_cons_self j pre)
    have ihe := ih (fun k hk => hgood k (List.mem_cons_of_mem j hk))
    rw [List.cons_append]
    unfold validateItems
    rw [hp, hi]
    dsimp only
    rw [if_neg (by omega), ihe]

/-- C10: a line whose product exists but has no stock record.  When the
first failing line of the request is such a line (all lines before it
validate), create_order rejects the whole order with the
insufficient-stock error reporting an available quantity of 0 — the same
error family as a stock shortage, not a not-found error — and the durable
state it leaves is exactly the unchanged input state. -/
theorem create_order_missing_stock_record_is_insufficient (db : DB) (o : OrderCreate)
    (pre rest : List OrderItemCreate) (it : OrderItemCreate) (prod : ProductRow)
    (hsplit : o.items = pre ++ it :: rest)
    (hgood : ∀ j ∈ pre, GoodLine db j)
    (hprod : get_product db it.product_id = some prod)
    (hnoinv : get_inventory_by_product_id db it.product_id = none) :
    create_order db o = .err (.insufficientStock it.product_id 0 it.quantity) db := by
  have hval : validateItems db (it :: rest) =
      .error (.insufficientStock it.product_id 0 it.quantity) := by
    unfold validateItems
    rw [hprod, hnoinv]
  have hall := validateItems_error_append_good db pre (it :: rest) _ hgood hval
  unfold create_order
  rw [hsplit, hall]

/-- The dbFix state with the stock record of product 1 removed. -/
def dbNoStock : DB := { dbFix with inventory := [] }

/-- An order for 3 units of product 1, which exists but has no stock record. -/
def orderNoStock : OrderCreate := { customer_name := none, items := [⟨1, 3⟩] }

/-- Witness for C10: with product 1 present but without a stock record, the
order is rejected with insufficient stock at availability 0, unchanged state. -/
theorem create_order_missing_stock_record_is_insufficient_witness :
    create_order dbNoStock orderNoStock = .err (.insufficientStock 1 0 3) dbNoStock :=
  create_order_missing_stock_record_is_insufficient dbNoStock orderNoStock [] [] ⟨1, 3⟩
    ⟨1, "Widget", none, 1000, 1, none⟩ rfl (by intro j hj; cases hj) (by decide) (by decide)

theorem validateItems_ok_spec (db : DB) (items : List OrderItemCreate)
    (t : ℤ) (pis : List PendingItem) (ups : List DeductionReq)
    (h : validateItems db items = .ok (t, pis, ups)) :
    pis = items.map (fun it =>
      { product_id := it.product_id, quantity := it.quantity,
        price_at_sale := priceOf db it.product_id,
        subtotal := priceOf db it.product_id * it.quantity }) ∧
    t = (items.map (fun it => priceOf db it.product_id * it.quantity)).sum := by
  induction items generalizing t pis ups with
  | nil =>
    unfold validateItems at h
    injection h with h
    injection h with h1 h2
    injection h2 with h2 h3
    subst h1
    subst h2
    simp
  | cons it rest ih =>
    unfold validateItems at h
    cases hp : get_product db it.product_id with
    | none =>
      rw [hp] at h
      cases h
    | some prod =>
      rw [hp] at h
      cases hi : get_inventory_by_product_id db it.product_id with
      | none =>
        rw [hi] at h
        cases h
      | some inv =>
        rw [hi] at h
        dsimp only at h
        by_cases hlt : inv.quantity < it.quantity
        · rw [if_pos hlt] at h
          cases h
        · rw [if_neg hlt] at h
          cases hrest : validateItems db rest with
          | error e =>
            rw [hrest] at h
            cases h
          | ok triple =>
            obtain ⟨t2, pis2, ups2⟩ := triple
            rw [hrest] at h
            injection h with h
            injection h with h1 h2
            injection h2 with h2 h3
            obtain ⟨hpis, ht⟩ := ih t2 pis2 ups2 hrest
            have hpr : priceOf db it.product_id = prod.price := by
              unfold priceOf
              rw [hp]
            subst h1
            subst h2
            constructor
            · rw [List.map_cons, ← hpis, hpr]
            · rw [List.map_cons, List.sum_cons, ← ht, hpr]

theorem applyDeductions_frame (ups : List DeductionReq) (db : DB) (oid : ℤ) :
    (applyDeductions db oid ups).order_items = db.order_items ∧
    (applyDeductions db oid ups).orders = db.orders := by
  induction ups generalizing db with
  | nil => exact ⟨rfl, rfl⟩
  | cons d rest ih =>
    unfold applyDeductions
    cases get_inventory_by_product_id db d.product_id with
    | none => exact ih db
    | some inv => exact ih _

/-- C7: pricing.  For every successfully created order, the order lines
appended for it carry price_at_sale equal to the price of their product as
read from the pre-state at validation time and subtotal equal to
price_at_sale times quantity, and the appended order row carries
total_amount equal to the sum of those subtotals across all lines. -/
theorem create_order_pricing (db : DB) (o : OrderCreate) (db2 : DB) (oid : ℤ)
    (h : create_order db o = .ok db2 oid) :
    oid = db.next_order_id ∧
    db2.order_items.drop db.order_items.length = o.items.map (fun it =>
      { order_id := oid, product_id := it.product_id, quantity := it.quantity,
        price_at_sale := priceOf db it.product_id,
        subtotal := priceOf db it.product_id * it.quantity }) ∧
    db2.orders.drop db.orders.length =
      [{ id := oid, order_date := db.now, customer_name := o.customer_name,
         status := "completed",
         total_amount := (o.items.map (fun it =>
           priceOf db it.product_id * it.quantity)).sum }] := by
  unfold create_order at h
  cases hval : validateItems db o.items with
  | error e =>
    rw [hval] at h
    cases h
  | ok triple =>
    obtain ⟨t, pis, ups⟩ := triple
    rw [hval] at h
    dsimp only at h
    injection h with hdb hoid
    obtain ⟨hpis, ht⟩ := validateItems_ok_spec db o.items t pis ups hval
    subst hoid
    subst hdb
    refine ⟨rfl, ?_, ?_⟩
    · rw [(applyDeductions_frame ups _ db.next_order_id).1]
      unfold create_order_commitBase
      dsimp only
      rw [List.drop_left]
      rw [hpis, List.map_map]
      rfl
    · rw [(applyDeductions_frame ups _ db.next_order_id).2]
      unfold create_order_commitBase
      dsimp only
      rw [List.drop_left]
      rw [ht]

/-- A two-product catalog for the pricing witness: product 1 at 5.00 with
10 in stock, product 2 at 2.50 with 5 in stock. -/
def dbTwo : DB :=
  { categories := [{ id := 1, name := "General", description := none }],
    products := [{ id := 1, name := "Widget", description := none, price := 500,
                   category_id := 1, sku := none },
                 { id := 2, name := "Gizmo", description := none, price := 250,
                   category_id := 1, sku := none }],
    inventory := [{ product_id := 1, quantity := 10, low_stock_threshold := 10 },
                  { product_id := 2, quantity := 5, low_stock_threshold := 10 }],
    inventory_logs := [], orders := [], order_items := [],
    next_product_id := 3, next_order_id := 1, now := 7 }

/-- An order for 2 units of product 1 and 3 units of product 2. -/
def orderTwo : OrderCreate := { customer_name := some "Alice", items := [⟨1, 2⟩, ⟨2, 3⟩] }

/-- The state produced by the pricing witness order. -/
def dbTwoRes : DB := resultDB (create_order dbTwo orderTwo)

/-- Witness for C7 at a concrete two-line order. -/
theorem create_order_pricing_witness :
    1 = dbTwo.next_order_id ∧
    dbTwoRes.order_items.drop dbTwo.order_items.length = orderTwo.items.map (fun it =>
      { order_id := 1, product_id := it.product_id, quantity := it.quantity,
        price_at_sale := priceOf dbTwo it.product_id,
        subtotal := priceOf dbTwo it.product_id * it.quantity }) ∧
    dbTwoRes.orders.drop dbTwo.orders.length =
      [{ id := 1, order_date := dbTwo.now, customer_name := orderTwo.customer_name,
         status := "completed",
         total_amount := (orderTwo.items.map (fun it =>
           priceOf dbTwo it.product_id * it.quantity)).sum }] :=
  create_order_pricing dbTwo orderTwo dbTwoRes 1 (by decide)

theorem map_pid_replaceFirst (l : List InventoryRow) (pid : ℤ)
    (f : InventoryRow → InventoryRow) (hf : ∀ r, (f r).product_id = r.product_id) :
    (replaceFirst (fun r => decide (r.product_id = pid)) f l).map (fun r => r.product_id) =
      l.map (fun r => r.product_id) := by
  induction l with
  | nil => rfl
  | cons a as ih =>
    unfold replaceFirst
    by_cases h : a.product_id = pid
    · rw [if_pos (by simpa using h)]
      simp [hf]
    · rw [if_neg (by simpa using h)]
      simp [ih]

theorem qtyOf_of_find_some (db : DB) (pid : ℤ) (inv : InventoryRow)
    (h : get_inventory_by_product_id db pid = some inv) : qtyOf db pid = inv.quantity := by
  unfold qtyOf
  rw [h]

theorem qtyOf_of_find_none (db : DB) (pid : ℤ)
    (h : get_inventory_by_product_id db pid = none) : qtyOf db pid = 0 := by
  unfold qtyOf
  rw [h]

theorem qtyOf_replace_ne (db db2 : DB) (pid pid2 : ℤ)
    (f : InventoryRow → InventoryRow) (hf : ∀ r, (f r).product_id = r.product_id)
    (hne : pid ≠ pid2)
    (h2 : db2.inventory = replaceFirst (fun r => decide (r.product_id = pid2)) f db.inventory) :
    qtyOf db2 pid = qtyOf db pid := by
  unfold qtyOf get_inventory_by_product_id
  rw [h2, find?_replaceFirst_of_ne db.inventory pid pid2 f hf hne]

theorem logChainB_nil (q0 q1 : ℤ) : logChainB q0 [] q1 = decide (q1 = q0) := rfl

theorem logChainB_refl (q : ℤ) : logChainB q [] q = true := by simp [logChainB]

theorem applyDeductions_logs (ups : List DeductionReq) (db : DB) (oid : ℤ) :
    ∃ tail,
      (applyDeductions db oid ups).inventory_logs = db.inventory_logs ++ tail ∧
      (applyDeductions db oid ups).inventory.map (fun r => r.product_id) =
        db.inventory.map (fun r => r.product_id) ∧
      (applyDeductions db oid ups).next_product_id = db.next_product_id ∧
      ∀ pid, logChainB (qtyOf db pid)
        (tail.filter (fun l => decide (l.product_id = pid)))
        (qtyOf (applyDeductions db oid ups) pid) = true := by
  induction ups generalizing db with
  | nil =>
    refine ⟨[], (List.append_nil _).symm, rfl, rfl, ?_⟩
    intro pid
    exact logChainB_refl _
  | cons d rest ih =>
    unfold applyDeductions
    cases hfind : get_inventory_by_product_id db d.product_id with
    | none => exact ih db
    | some inv =>
      dsimp only
      set dbm : DB :=
        { db with
            inventory := replaceFirst (fun r => decide (r.product_id = d.product_id))
              (fun r => { r with quantity := inv.quantity - d.quantity }) db.inventory,
            inventory_logs := db.inventory_logs ++
              [{ product_id := d.product_id, change_quantity := -d.quantity,
                 new_quantity := inv.quantity - d.quantity, reason := saleReason oid }] }
        with hdbm
      have hmidinv : dbm.inventory = replaceFirst (fun r => decide (r.product_id = d.product_id))
          (fun r => { r with quantity := inv.quantity - d.quantity }) db.inventory := by
        rw [hdbm]
      have hmidlogs : dbm.inventory_logs = db.inventory_logs ++
          [{ product_id := d.product_id, change_quantity := -d.quantity,
             new_quantity := inv.quantity - d.quantity, reason := saleReason oid }] := by
        rw [hdbm]
      have hqsame : qtyOf dbm d.product_id = inv.quantity - d.quantity :=
        qtyOf_replace db dbm d.product_id inv
          (fun r => { r with quantity := inv.quantity - d.quantity }) hfind rfl hmidinv
      obtain ⟨tail2, hlogs2, hmap2, hnext2, hchain2⟩ := ih dbm
      refine ⟨{ product_id := d.product_id, change_quantity := -d.quantity,
                new_quantity := inv.quantity - d.quantity,
                reason := saleReason oid } :: tail2, ?_, ?_, ?_, ?_⟩
      · rw [hlogs2, hmidlogs]
        simp
      · rw [hmap2, hmidinv]
        exact map_pid_replaceFirst db.inventory d.product_id _ (fun r => rfl)
      · rw [hnext2, hdbm]
      · intro pid
        by_cases hpid : d.product_id = pid
        · subst hpid
          rw [List.filter_cons_of_pos (by simp)]
          unfold logChainB
          rw [Bool.and_eq_true]
          constructor
          · rw [qtyOf_of_find_some db d.product_id inv hfind]
            simp only [decide_eq_true_eq]
            omega
          · have hc := hchain2 d.product_id
            rw [hqsame] at hc
            exact hc
        · rw [List.filter_cons_of_neg (by simpa using hpid)]
          have hq2 : qtyOf dbm pid = qtyOf db pid :=
            qtyOf_replace_ne db dbm pid d.product_id
              (fun r => { r with quantity := inv.quantity - d.quantity })
              (fun r => rfl) (fun hc => hpid hc.symm) hmidinv
          have hc := hchain2 pid
          rw [hq2] at hc
          exact hc

/-- Well-formedness preserved by every operation: every stock record
belongs to an already-allocated product id. -/
def WFInv (db : DB) : Prop :=
  ∀ q ∈ db.inventory.map (fun r => r.product_id), q < db.next_product_id

theorem find?_inventory_next_none (db : DB) (hwf : WFInv db) :
    get_inventory_by_product_id db db.next_product_id = none := by
  unfold get_inventory_by_product_id
  apply List.find?_eq_none.mpr
  intro r hr
  simp only [decide_eq_true_eq]
  have := hwf r.product_id (List.mem_map_of_mem _ hr)
  omega

/-- Per-operation audit accounting: from any well-formed state, the log
entries an operation appends for a product replay exactly the quantity
evolution of that product across the operation. -/
theorem applyOp_chain (db : DB) (op : Op) (hwf : WFInv db) (pid : ℤ) :
    logChainB (qtyOf db pid) (appendedLogsFor db (applyOp db op) pid)
      (qtyOf (applyOp db op) pid) = true := by
  cases op with
  | createProduct p =>
    show logChainB (qtyOf db pid) (appendedLogsFor db (create_product db p) pid)
      (qtyOf (create_product db p) pid) = true
    have hnone := find?_inventory_next_none db hwf
    unfold get_inventory_by_product_id at hnone
    unfold appendedLogsFor create_product create_product_afterFirstCommit
    dsimp only
    rw [List.drop_left]
    unfold qtyOf get_inventory_by_product_id
    dsimp only
    rw [find?_append_singleton]
    by_cases hpid : db.next_product_id = pid
    · subst hpid
      rw [hnone]
      rw [List.filter_cons_of_pos (by simp)]
      simp [logChainB]
    · rw [List.filter_cons_of_neg (by simpa using hpid)]
      cases hfind : List.find? (fun r => decide (r.product_id = pid)) db.inventory with
      | none =>
        dsimp only
        rw [if_neg (by simpa using hpid)]
        simp [logChainB]
      | some s => simp [logChainB]
  | updateInventory pid2 u =>
    show logChainB (qtyOf db pid)
      (appendedLogsFor db ((update_inventory db pid2 u).getD db) pid)
      (qtyOf ((update_inventory db pid2 u).getD db) pid) = true
    cases hfind : get_inventory_by_product_id db pid2 with
    | none =>
      rw [show update_inventory db pid2 u = none from by unfold update_inventory; rw [hfind]]
      unfold appendedLogsFor
      rw [Option.getD_none, List.drop_length]
      simp [logChainB]
    | some inv =>
      rw [show update_inventory db pid2 u = some (update_inventory_found db pid2 u inv) from by
        unfold update_inventory; rw [hfind]]
      rw [Option.getD_some]
      have hinvEq : (update_inventory_found db pid2 u inv).inventory =
          replaceFirst (fun r => decide (r.product_id = pid2))
            (fun r => { r with
              quantity := if rawNewQuantity inv.quantity u < 0 then 0 else rawNewQuantity inv.quantity u,
              low_stock_threshold := match u.low_stock_threshold with
                | some t => t
                | none => inv.low_stock_threshold })
            db.inventory := rfl
      have hlogsEq : (update_inventory_found db pid2 u inv).inventory_logs =
          if shouldLogUpdate inv.quantity
              ((if rawNewQuantity inv.quantity u < 0 then 0 else rawNewQuantity inv.quantity u) - inv.quantity) u
            then db.inventory_logs ++
              [{ product_id := pid2,
                 change_quantity := (if rawNewQuantity inv.quantity u < 0 then 0 else rawNewQuantity inv.quantity u) - inv.quantity,
                 new_quantity := if rawNewQuantity inv.quantity u < 0 then 0 else rawNewQuantity inv.quantity u,
                 reason := u.reason.getD "Manual update" }]
            else db.inventory_logs := rfl
      unfold appendedLogsFor
      rw [hlogsEq]
      by_cases hpid : pid2 = pid
      · subst hpid
        have hqpre : qtyOf db pid2 = inv.quantity := qtyOf_of_find_some db pid2 inv hfind
        have hqpost : qtyOf (update_inventory_found db pid2 u inv) pid2 =
            (if rawNewQuantity inv.quantity u < 0 then 0 else rawNewQuantity inv.quantity u) :=
          qtyOf_replace db _ pid2 inv
            (fun r => { r with
              quantity := if rawNewQuantity inv.quantity u < 0 then 0 else rawNewQuantity inv.quantity u,
              low_stock_threshold := match u.low_stock_threshold with
                | some t => t
                | none => inv.low_stock_threshold })
            hfind rfl hinvEq
        rw [hqpre, hqpost]
        by_cases hsl : shouldLogUpdate inv.quantity
            ((if rawNewQuantity inv.quantity u < 0 then 0 else rawNewQuantity inv.quantity u) - inv.quantity) u
        · rw [if_pos hsl, List.drop_left]
          rw [List.filter_cons_of_pos (by simp), List.filter_nil]
          unfold logChainB
          rw [Bool.and_eq_true]
          constructor
          · simp only [decide_eq_true_eq]
            omega
          · unfold logChainB
            simp
        · rw [if_neg hsl, List.drop_length]
          have hzero : (if rawNewQuantity inv.quantity u < 0 then 0 else rawNewQuantity inv.quantity u) - inv.quantity = 0 := by
            unfold shouldLogUpdate at hsl
            simp only [Bool.or_eq_true, decide_eq_true_eq, not_or, not_not] at hsl
            exact hsl.1.1
          rw [List.filter_nil]
          unfold logChainB
          simp only [decide_eq_true_eq]
          omega
      · have hq2 : qtyOf (update_inventory_found db pid2 u inv) pid = qtyOf db pid :=
          qtyOf_replace_ne db _ pid pid2
            (fun r => { r with
              quantity := if rawNewQuantity inv.quantity u < 0 then 0 else rawNewQuantity inv.quantity u,
              low_stock_threshold := match u.low_stock_threshold with
                | some t => t
                | none => inv.low_stock_threshold })
            (fun r => rfl) (fun hc => hpid hc.symm) hinvEq
        rw [hq2]
        by_cases hsl : shouldLogUpdate inv.quantity
            ((if rawNewQuantity inv.quantity u < 0 then 0 else rawNewQuantity inv.quantity u) - inv.quantity) u
        · rw [if_pos hsl, List.drop_left]
          rw [List.filter_cons_of_neg (by simpa using hpid), List.filter_nil]
          simp [logChainB]
        · rw [if_neg hsl, List.drop_length]
          simp [logChainB]
  | createOrder o =>
    show logChainB (qtyOf db pid)
      (appendedLogsFor db (resultDB (create_order db o)) pid)
      (qtyOf (resultDB (create_order db o)) pid) = true
    cases hval : validateItems db o.items with
    | error e =>
      rw [show create_order db o = .err e db from by unfold create_order; rw [hval]]
      unfold resultDB appendedLogsFor
      rw [List.drop_length]
      simp [logChainB]
    | ok triple =>
      obtain ⟨t, pis, ups⟩ := triple
      have hco : create_order db o =
          .ok (applyDeductions (create_order_commitBase db o t pis) db.next_order_id ups)
            db.next_order_id := by
        unfold create_order
        rw [hval]
      rw [hco]
      unfold resultDB
      obtain ⟨tail, hlogs, hmap, hnext, hchain⟩ :=
        applyDeductions_logs ups (create_order_commitBase db o t pis) db.next_order_id
      have hbaseLogs : (create_order_commitBase db o t pis).inventory_logs =
          db.inventory_logs := rfl
      have hbaseQty : qtyOf (create_order_commitBase db o t pis) pid = qtyOf db pid := rfl
      unfold appendedLogsFor
      rw [hlogs, hbaseLogs, List.drop_left, ← hbaseQty]
      exact hchain pid

theorem WFInv_applyOp (db : DB) (op : Op) (hwf : WFInv db) : WFInv (applyOp db op) := by
  cases op with
  | createProduct p =>
    show WFInv (create_product db p)
    unfold create_product create_product_afterFirstCommit
    intro q hq
    dsimp only at hq ⊢
    rw [List.map_append] at hq
    rcases List.mem_append.mp hq with hl | hr
    · have := hwf q hl
      omega
    · simp at hr
      omega
  | updateInventory pid2 u =>
    show WFInv ((update_inventory db pid2 u).getD db)
    cases hfind : get_inventory_by_product_id db pid2 with
    | none =>
      rw [show update_inventory db pid2 u = none from by unfold update_inventory; rw [hfind]]
      exact hwf
    | some inv =>
      rw [show update_inventory db pid2 u = some (update_inventory_found db pid2 u inv) from by
        unfold update_inventory; rw [hfind]]
      rw [Option.getD_some]
      intro q hq
      have hm : (update_inventory_found db pid2 u inv).inventory.map (fun r => r.product_id) =
          db.inventory.map (fun r => r.product_id) :=
        map_pid_replaceFirst db.inventory pid2 _ (fun r => rfl)
      rw [hm] at hq
      exact hwf q hq
  | createOrder o =>
    show WFInv (resultDB (create_order db o))
    cases hval : validateItems db o.items with
    | error e =>
      rw [show create_order db o = .err e db from by unfold create_order; rw [hval]]
      exact hwf
    | ok triple =>
      obtain ⟨t, pis, ups⟩ := triple
      rw [show create_order db o =
          .ok (applyDeductions (create_order_commitBase db o t pis) db.next_order_id ups)
            db.next_order_id from by unfold create_order; rw [hval]]
      unfold resultDB
      obtain ⟨tail, hlogs, hmap, hnext, hchain⟩ :=
        applyDeductions_logs ups (create_order_commitBase db o t pis) db.next_order_id
      intro q hq
      rw [hmap] at hq
      rw [hnext]
      exact hwf q hq

theorem WFInv_foldl (ops : List Op) (db : DB) (hwf : WFInv db) :
    WFInv (ops.foldl applyOp db) := by
  induction ops generalizing db with
  | nil => exact hwf
  | cons op rest ih => exact ih _ (WFInv_applyOp db op hwf)

theorem WFInv_runOps (ops : List Op) : WFInv (runOps ops) :=
  WFInv_foldl ops initialDB (by intro q hq; simp [initialDB] at hq)

/-- C4: audit completeness.  In every state reachable by any sequence of
create_product, update_inventory and create_order operations, the log
entries appended by the next operation for a product form a chain that
replays the quantity evolution of that product within that operation:
each entry records as change_quantity exactly the delta applied at its
point and as new_quantity exactly the resulting quantity, and the chain
ends at the post-state quantity.  Hence every quantity change has exactly
one matching log entry written in the same atomic unit (a change without
its entry, or an entry with a wrong delta or wrong resulting quantity,
would break the chain), for all three mutation paths: initial stocking,
manual adjustment and sale deduction. -/
theorem stock_log_audit_complete (ops : List Op) (op : Op) (pid : ℤ) :
    logChainB (qtyOf (runOps ops) pid)
      (appendedLogsFor (runOps ops) (applyOp (runOps ops) op) pid)
      (qtyOf (applyOp (runOps ops) op) pid) = true :=
  applyOp_chain (runOps ops) op (WFInv_runOps ops) pid
